import Mathlib

/-!
Verification of the domain risk-assessment scanner framework.

This file gives a shallow embedding, in Lean 4, of the scanner
orchestration engine and of the per-scanner analysis logic of the
repository (src/utils/domainChecks.ts, src/utils/scanners/*), and
proves properties of that embedding.

Modelling conventions:
* TypeScript strings become Lean `String`; `String.prototype.includes`
  becomes the `jsIncludes` helper below; `toLowerCase` becomes
  `String.toLower`; array `join` becomes `String.intercalate`.
* JavaScript `Date` values become `Int` millisecond timestamps;
  `Math.floor` of a division of millisecond differences becomes `Int.fdiv`
  (which floors, as `Math.floor` does for negative quotients).
* Network effects are made explicit: every scanner `run` is embedded as a
  pure function of the responses the network would return, and where a
  claim speaks about which requests are issued, the embedding also
  returns the list of requests made.
* Promises are modelled by their settlement: a promise settles exactly
  once, and `Promise.race` settles with whichever of its arguments
  settles first.  The orchestrator's per-scanner timeout race is
  embedded as a small state machine driven by settlement events.
-/

namespace RiskAssess

/-- Occurrence search over character lists: does `pat` occur as a
contiguous run somewhere in the list? -/
def hasInfix (pat : List Char) : List Char → Bool
  | [] => pat.isEmpty
  | c :: rest => pat.isPrefixOf (c :: rest) || hasInfix pat rest

/-- Model of JavaScript `s.includes(pat)` (substring containment). -/
def jsIncludes (s pat : String) : Bool :=
  hasInfix pat.toList s.toList

/-- Model of JavaScript `s.toLowerCase()` (character-wise lowering; the
inputs handled here are ASCII). -/
def jsToLower (s : String) : String :=
  String.mk (s.toList.map Char.toLower)

/-- Model of JavaScript `s.startsWith(pat)`. -/
def jsStartsWith (s pat : String) : Bool :=
  pat.toList.isPrefixOf s.toList

/-- Lifecycle state of an Executed Scanner Result
(src/types/domainScan.ts; see also index.ts state transitions). -/
inductive ScanStatus where
  | running
  | complete
  | error
deriving DecidableEq, Repr

/-- A scanner `run` outcome (TS `BaseScannerResult`): `summary` plus an
optional list of issue strings.  The `data` payload is opaque to the
orchestrator and is not modelled at this level. -/
structure ScanOutcome where
  summary : String
  issues : Option (List String)
deriving DecidableEq, Repr

/-- Scanner descriptor (TS interface `DomainScanner`): id, label, optional
timeout in milliseconds, and an optional fallback issue extractor.
The `run` function itself is effectful and is supplied to the embedded
orchestrator as a settlement map, so it is not a field here.
Display-only metadata (`description`, `dataSource`) is omitted. -/
structure DomainScanner where
  id : String
  label : String
  timeout : Option Nat
  deriveIssues : Option (ScanOutcome → String → List String)

/-- The six registered scanners, in registration order
(src/utils/scanners/index.ts, `SCANNERS`), with the timeouts each
descriptor declares.  None of the six defines `deriveIssues`. -/
def dnsScannerDesc : DomainScanner :=
  { id := "dns", label := "DNS Records", timeout := some 5000, deriveIssues := none }

def emailAuthScannerDesc : DomainScanner :=
  { id := "emailAuth", label := "emailAuth.label", timeout := some 10000, deriveIssues := none }

def certificateScannerDesc : DomainScanner :=
  { id := "certificates", label := "SSL/TLS Certificates", timeout := some 15000, deriveIssues := none }

def rdapScannerDesc : DomainScanner :=
  { id := "rdap", label := "Domain Registration (RDAP)", timeout := some 10000, deriveIssues := none }

def sslLabsScannerDesc : DomainScanner :=
  { id := "sslLabs", label := "SSL/TLS Configuration", timeout := some 600000, deriveIssues := none }

def securityHeadersScannerDesc : DomainScanner :=
  { id := "securityHeaders", label := "Security Headers", timeout := some 15000, deriveIssues := none }

def SCANNERS : List DomainScanner :=
  [dnsScannerDesc, emailAuthScannerDesc, certificateScannerDesc,
   rdapScannerDesc, sslLabsScannerDesc, securityHeadersScannerDesc]

/-- Executed Scanner Result (TS interface of the same name): identity
fields copied from the descriptor plus mutable lifecycle fields.
ISO timestamp fields (`startedAt`, `finishedAt`) are wall-clock metadata
and are not modelled. -/
structure ExecutedScannerResult where
  id : String
  label : String
  status : ScanStatus
  summary : Option String
  issues : Option (List String)
  error : Option String
deriving DecidableEq, Repr

/-- The initial result object the orchestrator creates for a scanner
before dispatch (index.ts, `base`): status `running`, `issues: []`. -/
def initialResult (s : DomainScanner) : ExecutedScannerResult :=
  { id := s.id, label := s.label, status := .running,
    summary := none, issues := some [], error := none }

/-- How a scanner's race settles: the underlying run resolved with an
outcome, or it (or the timeout race) rejected with an error message. -/
inductive Settle where
  | ok (outcome : ScanOutcome)
  | err (msg : String)
deriving Repr

/-- Final issue computation on resolution (index.ts):
`r.issues || scanner.deriveIssues?.(r, trimmed) || []`.
An empty `issues` array is truthy in JavaScript, so a present-but-empty
list is kept as is. -/
def finalIssues (s : DomainScanner) (r : ScanOutcome) (trimmed : String) : List String :=
  match r.issues with
  | some is => is
  | none =>
    match s.deriveIssues with
    | some f => f r trimmed
    | none => []

/-- The terminal result object for one scanner, given how its timeout
race settled.  Mirrors the `.then` branch
(`Object.assign(base, r, \x7b status: 'complete', issues, ... \x7d)`)
and the `.catch` branch of `runAllScanners`. -/
def settleResult (s : DomainScanner) (trimmed : String) : Settle → ExecutedScannerResult
  | .ok r =>
    { initialResult s with
        status := .complete,
        summary := some r.summary,
        issues := some (finalIssues s r trimmed) }
  | .err m =>
    { initialResult s with status := .error, error := some m }

/-- The final aggregate (TS `DomainScanAggregate`); the `timestamp`
field is wall-clock metadata and is not modelled. -/
structure DomainScanAggregate where
  domain : String
  scanners : List ExecutedScannerResult
  issues : List String
deriving DecidableEq, Repr

/-- Embedding of `runAllScanners` (index.ts): normalise the domain,
run every registered scanner, and aggregate the terminal results in
registration order.  `settles` maps each scanner id to how that
scanner's timeout race settled (resolution, rejection, or timeout
rejection); the all-settle semantics of `Promise.allSettled` mean the
aggregate is a total function of those settlements. -/
def runAllScanners (domain : String) (settles : String → Settle) : DomainScanAggregate :=
  let trimmed := domain.trim.toLower
  let results := SCANNERS.map (fun s => settleResult s trimmed (settles s.id))
  { domain := trimmed,
    scanners := results,
    issues := (results.map (fun r => r.issues.getD [])).flatten }

/-- C1.  For every domain and every combination of scanner settlements
(successes, failures, timeouts), `runAllScanners` produces an aggregate
whose `scanners` list carries exactly one result per registered scanner,
in registration order (the id lists coincide), each in a terminal state
(`complete` or `error`).  Totality of the embedded function over all
settlement maps captures that the promise resolves (never rejects) once
every scanner has settled, and that one scanner's failure never prevents
the aggregate from being produced. -/
theorem runAll_one_terminal_result_per_scanner
    (domain : String) (settles : String → Settle) :
    (runAllScanners domain settles).scanners.map (fun r => r.id)
      = SCANNERS.map (fun s => s.id)
    ∧ ∀ r ∈ (runAllScanners domain settles).scanners,
        r.status = .complete ∨ r.status = .error := by
  constructor
  · simp only [runAllScanners, List.map_map]
    apply List.map_congr_left
    intro s _
    cases h : settles s.id <;> simp [settleResult, initialResult, h]
  · intro r hr
    simp only [runAllScanners, List.mem_map] at hr
    obtain ⟨s, _, rfl⟩ := hr
    cases settles s.id <;> simp [settleResult, initialResult]

/-- Witness for C1: a concrete run in which some scanners fail and some
succeed still yields six terminal results with the registry ids in
order. -/
def settlesMixed : String → Settle := fun sid =>
  if sid = "dns" then .ok { summary := "Found A:1", issues := some [] }
  else if sid = "rdap" then .err "Domain Registration (RDAP) timed out after 10000ms"
  else .err "network failure"

theorem runAll_one_terminal_result_per_scanner_witness :
    (runAllScanners " Example.COM " settlesMixed).scanners.map (fun r => r.id)
      = SCANNERS.map (fun s => s.id)
    ∧ ((settleResult dnsScannerDesc "example.com" (settlesMixed "dns")).status = .complete
        ∨ (settleResult dnsScannerDesc "example.com" (settlesMixed "dns")).status = .error) := by
  refine ⟨(runAll_one_terminal_result_per_scanner " Example.COM " settlesMixed).1, ?_⟩
  exact (runAll_one_terminal_result_per_scanner " Example.COM " settlesMixed).2
    (settleResult dnsScannerDesc "example.com" (settlesMixed "dns"))
    (by simp [runAllScanners, SCANNERS]; exact Or.inl (by decide))

/-- Settlement events that can reach one scanner's timeout race
(`withTimeout` in index.ts): the underlying run resolves or rejects, or
the timeout timer fires. -/
inductive ScanEvent where
  | resolved (outcome : ScanOutcome)
  | rejected (msg : String)
  | timeoutFired
deriving DecidableEq, Repr

/-- One scanner's result object together with the settlement state of
its `withTimeout` race promise.  A JavaScript promise settles at most
once, so `Promise.race` settles with the first settlement of either
argument and ignores every later one; `raceSettled` records whether the
race has already settled. -/
structure RaceState where
  res : ExecutedScannerResult
  raceSettled : Bool
deriving DecidableEq, Repr

/-- Race state at dispatch: the freshly created `running` result object
and a pending race promise. -/
def initialRaceState (s : DomainScanner) : RaceState :=
  { res := initialResult s, raceSettled := false }

/-- The rejection message the timeout arm of `withTimeout` produces. -/
def timeoutMessage (label : String) (timeoutMs : Nat) : String :=
  label ++ " timed out after " ++ toString timeoutMs ++ "ms"

/-- Effective timeout the orchestrator races a scanner against
(index.ts: `scanner.timeout ?? DEFAULT_SCANNER_TIMEOUT`). -/
def effectiveTimeout (s : DomainScanner) (defaultTimeout : Nat) : Nat :=
  s.timeout.getD defaultTimeout

/-- One settlement event hitting one scanner's race.  The `.then`
handler merges the outcome and marks the result `complete`; the
`.catch` handler captures the failure message and marks it `error`; the
timeout arm rejects with the timeout message.  All three run as
settlement handlers of the race promise, so once the race has settled
a later event triggers no handler and the state is unchanged. -/
def stepScanner (s : DomainScanner) (trimmed : String) (defaultTimeout : Nat)
    (st : RaceState) (e : ScanEvent) : RaceState :=
  if st.raceSettled then st
  else
    match e with
    | .resolved r =>
      { raceSettled := true,
        res := { st.res with
                   status := .complete,
                   summary := some r.summary,
                   issues := some (finalIssues s r trimmed) } }
    | .rejected m =>
      { raceSettled := true,
        res := { st.res with status := .error, error := some m } }
    | .timeoutFired =>
      { raceSettled := true,
        res := { st.res with
                   status := .error,
                   error := some (timeoutMessage s.label (effectiveTimeout s defaultTimeout)) } }

/-- Race state of one scanner after a sequence of settlement events. -/
def runRace (s : DomainScanner) (trimmed : String) (defaultTimeout : Nat)
    (events : List ScanEvent) : RaceState :=
  events.foldl (stepScanner s trimmed defaultTimeout) (initialRaceState s)

/-- A settled race ignores further settlement events. -/
theorem stepScanner_of_settled {s : DomainScanner} {trimmed : String}
    {defaultTimeout : Nat} {st : RaceState} (h : st.raceSettled = true)
    (e : ScanEvent) : stepScanner s trimmed defaultTimeout st e = st := by
  simp [stepScanner, h]

/-- A settled race ignores any further sequence of settlement events. -/
theorem foldl_stepScanner_of_settled {s : DomainScanner} {trimmed : String}
    {defaultTimeout : Nat} {st : RaceState} (h : st.raceSettled = true) :
    ∀ events : List ScanEvent,
      events.foldl (stepScanner s trimmed defaultTimeout) st = st := by
  intro events
  induction events with
  | nil => rfl
  | cons e rest ih => rw [List.foldl_cons, stepScanner_of_settled h, ih]

/-- Invariant tying the lifecycle state to the race promise: either the
result is still `running` and the race is pending, or the result is
terminal and the race has settled. -/
def RaceInv (st : RaceState) : Prop :=
  (st.res.status = .running ∧ st.raceSettled = false)
  ∨ ((st.res.status = .complete ∨ st.res.status = .error) ∧ st.raceSettled = true)

theorem raceInv_initial (s : DomainScanner) : RaceInv (initialRaceState s) :=
  Or.inl ⟨rfl, rfl⟩

theorem raceInv_step (s : DomainScanner) (trimmed : String) (defaultTimeout : Nat)
    {st : RaceState} (h : RaceInv st) (e : ScanEvent) :
    RaceInv (stepScanner s trimmed defaultTimeout st e) := by
  rcases h with ⟨_, hpend⟩ | ⟨hterm, hset⟩
  · cases e <;> simp [stepScanner, hpend, RaceInv]
  · rw [stepScanner_of_settled hset]
    exact Or.inr ⟨hterm, hset⟩

theorem raceInv_runRace (s : DomainScanner) (trimmed : String) (defaultTimeout : Nat)
    (events : List ScanEvent) : RaceInv (runRace s trimmed defaultTimeout events) := by
  rw [runRace]
  generalize hst : initialRaceState s = st
  have h : RaceInv st := hst ▸ raceInv_initial s
  clear hst
  induction events generalizing st with
  | nil => exact h
  | cons e rest ih =>
    rw [List.foldl_cons]
    exact ih (stepScanner s trimmed defaultTimeout st e)
      (raceInv_step s trimmed defaultTimeout h e)

/-- C2.  Once the result object created for a scanner has reached a
terminal state (`complete` or `error`), no later settlement event — in
particular not the underlying run settling after the timeout already
fired — changes it again: the late outcome is discarded rather than
applied to the already-terminal result object. -/
theorem terminal_result_never_mutated (s : DomainScanner) (trimmed : String)
    (defaultTimeout : Nat) (events lateEvents : List ScanEvent)
    (hterm : (runRace s trimmed defaultTimeout events).res.status = .complete
      ∨ (runRace s trimmed defaultTimeout events).res.status = .error) :
    lateEvents.foldl (stepScanner s trimmed defaultTimeout)
        (runRace s trimmed defaultTimeout events)
      = runRace s trimmed defaultTimeout events := by
  have hinv := raceInv_runRace s trimmed defaultTimeout events
  rcases hinv with ⟨hrun, _⟩ | ⟨_, hset⟩
  · rcases hterm with h | h <;> rw [hrun] at h <;> exact absurd h (by simp)
  · exact foldl_stepScanner_of_settled hset lateEvents

/-- Witness for C2: the DNS scanner times out, and a late resolution of
its underlying run leaves the timed-out error result untouched. -/
theorem terminal_result_never_mutated_witness :
    ((runRace dnsScannerDesc "example.com" 30000 [.timeoutFired]).res.status = .complete
      ∨ (runRace dnsScannerDesc "example.com" 30000 [.timeoutFired]).res.status = .error)
    ∧ [ScanEvent.resolved { summary := "late outcome", issues := some ["late issue"] }].foldl
          (stepScanner dnsScannerDesc "example.com" 30000)
          (runRace dnsScannerDesc "example.com" 30000 [.timeoutFired])
        = runRace dnsScannerDesc "example.com" 30000 [.timeoutFired] := by
  refine ⟨Or.inr (by decide), ?_⟩
  exact terminal_result_never_mutated dnsScannerDesc "example.com" 30000
    [.timeoutFired] [.resolved { summary := "late outcome", issues := some ["late issue"] }]
    (Or.inr (by decide))

/-- C10.  Every scanner in the registry declares its own timeout, so the
timeout the orchestrator races it against equals the descriptor timeout
whatever the (mutable, `setScannerTimeout`-overridable) global default
is, and the default has no effect on the timeout race transition. -/
theorem registered_timeout_is_descriptor_timeout (s : DomainScanner)
    (hs : s ∈ SCANNERS) :
    ∃ t : Nat, s.timeout = some t
      ∧ (∀ defaultTimeout : Nat, effectiveTimeout s defaultTimeout = t)
      ∧ (∀ trimmed : String, ∀ d₁ d₂ : Nat, ∀ st : RaceState, ∀ e : ScanEvent,
          stepScanner s trimmed d₁ st e = stepScanner s trimmed d₂ st e) := by
  simp only [SCANNERS, List.mem_cons, List.not_mem_nil, or_false] at hs
  rcases hs with rfl | rfl | rfl | rfl | rfl | rfl
  · exact ⟨5000, rfl, fun _ => rfl, fun t d₁ d₂ st e => by
      cases e <;> simp [stepScanner, effectiveTimeout, dnsScannerDesc]⟩
  · exact ⟨10000, rfl, fun _ => rfl, fun t d₁ d₂ st e => by
      cases e <;> simp [stepScanner, effectiveTimeout, emailAuthScannerDesc]⟩
  · exact ⟨15000, rfl, fun _ => rfl, fun t d₁ d₂ st e => by
      cases e <;> simp [stepScanner, effectiveTimeout, certificateScannerDesc]⟩
  · exact ⟨10000, rfl, fun _ => rfl, fun t d₁ d₂ st e => by
      cases e <;> simp [stepScanner, effectiveTimeout, rdapScannerDesc]⟩
  · exact ⟨600000, rfl, fun _ => rfl, fun t d₁ d₂ st e => by
      cases e <;> simp [stepScanner, effectiveTimeout, sslLabsScannerDesc]⟩
  · exact ⟨15000, rfl, fun _ => rfl, fun t d₁ d₂ st e => by
      cases e <;> simp [stepScanner, effectiveTimeout, securityHeadersScannerDesc]⟩

/-- Witness for C10: the DNS scanner races against its declared 5000 ms
timeout no matter what the global default is set to. -/
theorem registered_timeout_is_descriptor_timeout_witness :
    effectiveTimeout dnsScannerDesc 30000 = 5000
    ∧ effectiveTimeout dnsScannerDesc 77 = 5000 := by
  obtain ⟨t, ht, hall, -⟩ :=
    registered_timeout_is_descriptor_timeout dnsScannerDesc
      (List.mem_cons_self dnsScannerDesc _)
  have htv : t = 5000 := by
    have : (some 5000 : Option Nat) = some t := ht
    exact (Option.some.inj this).symm
  rw [hall 30000, hall 77, htv]
  exact ⟨rfl, rfl⟩

/-- Severity levels of an interpretation (TS `SeverityLevel`). -/
inductive Severity where
  | success
  | info
  | warning
  | critical
  | error
deriving DecidableEq, Repr

/-- Result of an interpretation function (TS `ScannerInterpretation`). -/
structure ScannerInterpretation where
  severity : Severity
  message : String
  recommendation : String
deriving DecidableEq, Repr

/-- JavaScript `a || b` for an optional string `a`: the fallback is used
when `a` is absent or empty (empty strings are falsy). -/
def jsOrElse (a : Option String) (b : String) : String :=
  match a with
  | some s => if s = "" then b else s
  | none => b

/-- The six scanner-specific interpretation functions that
`interpretScannerResult` dispatches to by scanner id.  They are imported
functions in the source module, so the embedded dispatcher takes them as
a parameter block. -/
structure ScannerInterpreters where
  dns : ExecutedScannerResult → Nat → ScannerInterpretation
  emailAuth : ExecutedScannerResult → Nat → ScannerInterpretation
  certificates : ExecutedScannerResult → Nat → ScannerInterpretation
  rdap : ExecutedScannerResult → Nat → ScannerInterpretation
  sslLabs : ExecutedScannerResult → Nat → ScannerInterpretation
  securityHeaders : ExecutedScannerResult → Nat → ScannerInterpretation

/-- Embedding of `interpretScannerResult` (index.ts): error results
short-circuit to an `error` interpretation built from the captured
error text; otherwise the issue count is computed
(`scanner.issues?.length || 0`) and the scanner-specific function is
dispatched by id, with a generic fallback for unrecognized ids. -/
def interpretScannerResult (fns : ScannerInterpreters)
    (scanner : ExecutedScannerResult) : ScannerInterpretation :=
  if scanner.status = .error then
    { severity := .error,
      message := jsOrElse scanner.error "Scanner failed to execute",
      recommendation :=
        "This check could not be completed. Please try again or check your network connection." }
  else
    let issueCount := (scanner.issues.getD []).length
    if scanner.id = "dns" then fns.dns scanner issueCount
    else if scanner.id = "emailAuth" then fns.emailAuth scanner issueCount
    else if scanner.id = "certificates" then fns.certificates scanner issueCount
    else if scanner.id = "rdap" then fns.rdap scanner issueCount
    else if scanner.id = "sslLabs" then fns.sslLabs scanner issueCount
    else if scanner.id = "securityHeaders" then fns.securityHeaders scanner issueCount
    else
      { severity := if issueCount = 0 then .success else .warning,
        message :=
          if issueCount = 0 then "Check completed successfully"
          else toString issueCount ++ " issue(s) found",
        recommendation :=
          if issueCount = 0 then "No issues detected."
          else "Review the issues listed above for more details." }

/-- Ids that have a scanner-specific interpretation branch. -/
def dispatchedIds : List String :=
  ["dns", "emailAuth", "certificates", "rdap", "sslLabs", "securityHeaders"]

/-- C3.  An `error` result always short-circuits to severity `error`
with the captured error text as the message, whatever the six
scanner-specific interpretation functions do; and a result whose id
matches no registered scanner falls back to the generic rule: severity
`success` when the issue count is zero and `warning` otherwise, with a
generic recommendation. -/
theorem interpret_error_short_circuits_and_unknown_id_falls_back
    (fns : ScannerInterpreters) (scanner : ExecutedScannerResult) :
    (scanner.status = .error →
      (interpretScannerResult fns scanner).severity = .error
      ∧ ∀ e, scanner.error = some e → e ≠ "" →
          (interpretScannerResult fns scanner).message = e)
    ∧ (scanner.status ≠ .error → scanner.id ∉ dispatchedIds →
        interpretScannerResult fns scanner =
          { severity := if (scanner.issues.getD []).length = 0 then .success else .warning,
            message :=
              if (scanner.issues.getD []).length = 0 then "Check completed successfully"
              else toString (scanner.issues.getD []).length ++ " issue(s) found",
            recommendation :=
              if (scanner.issues.getD []).length = 0 then "No issues detected."
              else "Review the issues listed above for more details." }) := by
  constructor
  · intro herr
    refine ⟨by simp [interpretScannerResult, herr], ?_⟩
    intro e he hne
    simp [interpretScannerResult, herr, jsOrElse, he, hne]
  · intro hok hid
    simp only [dispatchedIds, List.mem_cons, List.not_mem_nil, or_false,
      not_or] at hid
    obtain ⟨h1, h2, h3, h4, h5, h6⟩ := hid
    simp [interpretScannerResult, hok, h1, h2, h3, h4, h5, h6]

/-- A constant interpretation function block, used only to witness
statements that hold for every dispatcher. -/
def trivialInterpreters : ScannerInterpreters :=
  let f : ExecutedScannerResult → Nat → ScannerInterpretation :=
    fun _ _ => { severity := .info, message := "x", recommendation := "y" }
  { dns := f, emailAuth := f, certificates := f, rdap := f,
    sslLabs := f, securityHeaders := f }

def erroredResult : ExecutedScannerResult :=
  { id := "dns", label := "DNS Records", status := .error,
    summary := none, issues := some [], error := some "network down" }

def unknownIdResult : ExecutedScannerResult :=
  { id := "portScan", label := "Port Scan", status := .complete,
    summary := some "done", issues := some ["open telnet port"], error := none }

/-- Witness for C3: a concrete errored result and a concrete
unrecognized-id result. -/
theorem interpret_error_short_circuits_witness :
    ((interpretScannerResult trivialInterpreters erroredResult).severity = .error
      ∧ (interpretScannerResult trivialInterpreters erroredResult).message = "network down")
    ∧ interpretScannerResult trivialInterpreters unknownIdResult =
        { severity := .warning, message := "1 issue(s) found",
          recommendation := "Review the issues listed above for more details." } := by
  have h := interpret_error_short_circuits_and_unknown_id_falls_back
    trivialInterpreters erroredResult
  have h2 := interpret_error_short_circuits_and_unknown_id_falls_back
    trivialInterpreters unknownIdResult
  refine ⟨⟨(h.1 rfl).1, (h.1 rfl).2 "network down" rfl (by decide)⟩, ?_⟩
  rw [h2.2 (by decide) (by decide)]
  rfl

/-- Splitting a character list at every occurrence of a separator;
models JavaScript `String.prototype.split` with a single-character
separator (`''.split(c)` gives `['']`, so the result is never empty). -/
def splitOnChar (c : Char) : List Char → List (List Char)
  | [] => [[]]
  | x :: rest =>
    if x = c then [] :: splitOnChar c rest
    else
      match splitOnChar c rest with
      | [] => [[x]]
      | g :: gs => (x :: g) :: gs

/-- The record types the DNS scanner fetches (dnsScanner.ts). -/
def dnsRecordTypes : List String := ["A", "AAAA", "MX", "TXT", "CNAME"]

/-- The record list the DNS scanner accumulates: one `(type, data)`
entry per lookup whose `fetchDNS` call returned a result object
(`null` results — transport or HTTP failure — are skipped). -/
def dnsRecords (fetch : String → Option (List String)) : List (String × List String) :=
  dnsRecordTypes.filterMap (fun t => (fetch t).map (fun d => (t, d)))

/-- Lookup of one record type in the accumulated list
(`records.find(r => r.type === t)?.data || []`). -/
def recordsOfType (records : List (String × List String)) (t : String) : List String :=
  ((records.find? (fun r => r.1 = t)).map Prod.snd).getD []

/-- Reserved/private IPv4 prefixes flagged by the DNS scanner. -/
def reservedIPs : List String :=
  ["127.", "0.0.0.0", "10.", "172.16.", "192.168.", "169.254."]

/-- Does a string match `^\d+\.\d+\.\d+\.\d+\.?$` (dotted-quad IPv4
literal, optional trailing dot)? -/
def isIPv4Literal (s : String) : Bool :=
  match splitOnChar '.' s.toList with
  | [a, b, c, d] =>
    (!a.isEmpty && a.all Char.isDigit) && (!b.isEmpty && b.all Char.isDigit)
      && (!c.isEmpty && c.all Char.isDigit) && (!d.isEmpty && d.all Char.isDigit)
  | [a, b, c, d, e] =>
    (!a.isEmpty && a.all Char.isDigit) && (!b.isEmpty && b.all Char.isDigit)
      && (!c.isEmpty && c.all Char.isDigit) && (!d.isEmpty && d.all Char.isDigit)
      && e.isEmpty
  | _ => false

/-- Issue list of the DNS scanner (dnsScanner.ts `run`), as the ordered
concatenation of its pushes. -/
def dnsIssues (records : List (String × List String)) : List String :=
  let aRecords := recordsOfType records "A"
  let aaaaRecords := recordsOfType records "AAAA"
  let mxRecords := recordsOfType records "MX"
  let cnameRecords := recordsOfType records "CNAME"
  let txtRecords := recordsOfType records "TXT"
  (if aRecords.length = 0 ∧ aaaaRecords.length = 0 ∧ cnameRecords.length = 0 then
    ["No A, AAAA, or CNAME records found - domain may not be accessible via web browser"]
  else [])
  ++ aRecords.filterMap (fun ip =>
      if reservedIPs.any (fun p => jsStartsWith ip p) then
        some ("A record contains reserved/private IP: " ++ ip ++ " - should be a public IP")
      else none)
  ++ (if cnameRecords.length > 0 then
      (if aRecords.length > 0 ∨ aaaaRecords.length > 0 ∨ mxRecords.length > 0 then
        ["CNAME conflict detected - CNAME records cannot coexist with A, AAAA, or MX records"]
      else [])
      ++ (if cnameRecords.length > 1 then
        ["Multiple CNAME records found - only one CNAME record should exist per name"]
      else [])
    else [])
  ++ (if aRecords.length > 10 then
      ["Unusually high number of A records (" ++ toString aRecords.length
        ++ ") - verify this is intentional"]
    else [])
  ++ (if mxRecords.length = 0 then
      ["No MX records found - email delivery to this domain will fail"]
    else [])
  ++ txtRecords.filterMap (fun txt =>
      if txt.length > 255 then
        some "TXT record exceeds 255 characters - may cause issues with some DNS resolvers"
      else none)
  ++ mxRecords.filterMap (fun mx =>
      let parts := (splitOnChar ' ' mx.toList).map (fun g => String.mk g)
      let p1 := parts.getD 1 ""
      let hostname := if p1 = "" then parts.getD 0 "" else p1
      if isIPv4Literal hostname then
        some ("MX record points to IP address (" ++ hostname ++ ") - should point to a hostname")
      else none)

/-- Summary line of the DNS scanner: `Found TYPE:count, ...` when the
accumulated record list is nonempty, else the no-records text. -/
def dnsSummary (records : List (String × List String)) : String :=
  if records.length > 0 then
    "Found " ++ String.intercalate ", "
      (records.map (fun r => r.1 ++ ":" ++ toString r.2.length))
  else "No DNS records found"

/-- Structured outcome of the DNS scanner's run. -/
structure DnsOutcome where
  records : List (String × List String)
  summary : String
  issues : List String
deriving DecidableEq, Repr

/-- Embedding of `dnsScanner.run` as a function of the per-type lookup
results (`fetch t = none` models a `null` return of `fetchDNS`, i.e. a
transport/HTTP failure; `some data` models a result object whose answer
list is `data`, possibly empty). -/
def dnsScanRun (fetch : String → Option (List String)) : DnsOutcome :=
  let records := dnsRecords fetch
  { records := records, summary := dnsSummary records, issues := dnsIssues records }

theorem str_data_append (a b : String) : (a ++ b).data = a.data ++ b.data := by
  cases a
  cases b
  rfl

/-- A summary of the `Found ...` shape is never the no-records text. -/
theorem found_append_ne_noRecords (x : String) :
    "Found " ++ x ≠ "No DNS records found" := by
  intro h
  have hF : 'F' ∈ ("Found " ++ x).data := by
    rw [str_data_append]
    exact List.mem_append_left _ (by decide)
  rw [h] at hF
  exact absurd hF (by decide)

/-- Every lookup succeeding with an empty answer list: no DNS records of
any type exist, yet every `fetchDNS` call returns a result object. -/
def allEmptyFetch : String → Option (List String) := fun _ => some []

/-- Counterexample to C5 as stated: when all five lookups succeed but
return zero answers, no DNS record of any type was found, yet the
summary is `Found A:0, AAAA:0, MX:0, TXT:0, CNAME:0`, not
`No DNS records found`.  The no-records text appears exactly when every
lookup failed (returned `null`), not when no records were found. -/
theorem dns_summary_counterexample :
    (dnsRecordTypes.all (fun t => ((allEmptyFetch t).getD []).isEmpty)) = true
    ∧ (dnsScanRun allEmptyFetch).summary = "Found A:0, AAAA:0, MX:0, TXT:0, CNAME:0"
    ∧ ¬ (dnsScanRun allEmptyFetch).summary = "No DNS records found" := by
  decide

/-- C5 (amended).  The DNS scanner's summary is the literal string
`No DNS records found` exactly when every one of the five lookups
failed (returned `null`); otherwise it is `Found ` followed by the
comma-joined `TYPE:count` list, one entry per lookup that returned a
result object (counts may be zero). -/
theorem dns_summary_noRecords_iff_all_lookups_failed
    (fetch : String → Option (List String)) :
    ((dnsScanRun fetch).summary = "No DNS records found"
      ↔ ∀ t ∈ dnsRecordTypes, fetch t = none)
    ∧ ((dnsScanRun fetch).summary ≠ "No DNS records found" →
        (dnsScanRun fetch).summary
          = "Found " ++ String.intercalate ", "
              ((dnsRecords fetch).map (fun r => r.1 ++ ":" ++ toString r.2.length))) := by
  have hrec : dnsRecords fetch = [] ↔ ∀ t ∈ dnsRecordTypes, fetch t = none := by
    simp [dnsRecords, List.filterMap_eq_nil_iff, Option.map_eq_none']
  constructor
  · constructor
    · intro hsum
      rw [← hrec]
      by_contra hne
      have hlen : 0 < (dnsRecords fetch).length := List.length_pos.mpr hne
      simp only [dnsScanRun, dnsSummary, hlen, if_pos] at hsum
      exact found_append_ne_noRecords _ hsum
    · intro hall
      have hnil : dnsRecords fetch = [] := hrec.mpr hall
      simp [dnsScanRun, dnsSummary, hnil]
  · intro hne
    by_cases h : dnsRecords fetch = []
    · exact absurd (by simp [dnsScanRun, dnsSummary, h]) hne
    · have hlen : 0 < (dnsRecords fetch).length := List.length_pos.mpr h
      simp [dnsScanRun, dnsSummary, hlen]

/-- Lookup map with one successful `A` record and four failures. -/
def oneRecordFetch : String → Option (List String) :=
  fun t => if t = "A" then some ["93.184.216.34"] else none

/-- Lookup map where every request fails. -/
def allNoneFetch : String → Option (List String) := fun _ => none

/-- Witness for the amended C5 at two concrete lookup maps. -/
theorem dns_summary_noRecords_iff_witness :
    (dnsScanRun oneRecordFetch).summary
      = "Found " ++ String.intercalate ", "
          ((dnsRecords oneRecordFetch).map (fun r => r.1 ++ ":" ++ toString r.2.length))
    ∧ (dnsScanRun allNoneFetch).summary = "No DNS records found" := by
  refine ⟨(dns_summary_noRecords_iff_all_lookups_failed oneRecordFetch).2 (by decide), ?_⟩
  exact (dns_summary_noRecords_iff_all_lookups_failed allNoneFetch).1.mpr (by decide)

/-- An SSL Labs endpoint as consumed by the grade pipeline of
`sslLabsScanner.run` (sslLabsScanner.ts): the fields the grade and
summary computation reads.  Protocol/vulnerability detail analysis only
contributes issue strings and is modelled separately from the grade
pipeline. -/
structure SSLLabsEndpoint where
  ipAddress : String
  grade : Option String
deriving DecidableEq, Repr

/-- The numeric grade ranking (`gradeMap`), with `gradeMap[g] || 0` for
unknown grades. -/
def gradeRank (g : String) : Nat :=
  if g = "A+" then 100 else if g = "A" then 95 else if g = "A-" then 90
  else if g = "B" then 80 else if g = "C" then 70 else if g = "D" then 60
  else if g = "E" then 50 else if g = "F" then 40 else if g = "T" then 30
  else if g = "M" then 20 else 0

/-- The grade letters pushed while walking the endpoints (one per
endpoint whose `grade` field is set). -/
def collectGrades (endpoints : List SSLLabsEndpoint) : List String :=
  endpoints.filterMap (fun ep => ep.grade)

/-- The scanner's `lowestGradeValue` accumulator
(`Math.min` of `gradeMap[grade] || 0` over graded endpoints, starting
at 100).  The source computes this value but never uses it. -/
def lowestGradeValueOf (endpoints : List SSLLabsEndpoint) : Nat :=
  endpoints.foldl
    (fun acc ep =>
      match ep.grade with
      | some g => min acc (gradeRank g)
      | none => acc)
    100

/-- First-occurrence deduplication with an explicit seen set; models
JavaScript `[...new Set(grades)]`. -/
def dedupFirstAux (seen : List String) : List String → List String
  | [] => []
  | x :: rest =>
    if x ∈ seen then dedupFirstAux seen rest
    else x :: dedupFirstAux (x :: seen) rest

def dedupFirst (l : List String) : List String := dedupFirstAux [] l

/-- Lexicographic code-point comparison of character lists. -/
def charListLe : List Char → List Char → Bool
  | [], _ => true
  | _ :: _, [] => false
  | a :: as, b :: bs =>
    if a.toNat < b.toNat then true
    else if b.toNat < a.toNat then false
    else charListLe as bs

/-- Code-point string comparison.  This is a concrete comparator that
agrees with every `localeCompare` collation on strings made of plain
Latin letters only (such as the grades `T` and `M`), and is used below
only at such inputs; it is not a faithful model of `localeCompare` on
strings containing punctuation (the CLDR root collation orders `A-`
before `A+`, code points the reverse), which is why the sort below is
parameterized over the comparator instead of fixing this one. -/
def strLe (a b : String) : Bool := charListLe a.toList b.toList

/-- Insertion of one string into a list, keeping ascending `le`
order. -/
def insertSorted (le : String → String → Bool) (x : String) :
    List String → List String
  | [] => [x]
  | y :: ys => if le x y = true then x :: y :: ys else y :: insertSorted le x ys

/-- Ascending insertion sort by a comparator `le`: a sorted
permutation, hence (on duplicate-free input and a total, transitive
comparator) exactly what
`Array.prototype.sort((a, b) => a.localeCompare(b))` produces when `le`
is `a.localeCompare(b) <= 0`. -/
def sortStrings (le : String → String → Bool) : List String → List String
  | [] => []
  | x :: xs => insertSorted le x (sortStrings le xs)

/-- The scanner's `uniqueGrades`:
`[...new Set(grades)].sort((a, b) => a.localeCompare(b))`.
`localeCompare` without arguments collates by the host environment's
default locale, so the collation is a parameter here; every collation
is a consistent comparator, i.e. total and transitive, which is all the
theorems below assume about it. -/
def uniqueGradesOf (le : String → String → Bool)
    (endpoints : List SSLLabsEndpoint) : List String :=
  sortStrings le (dedupFirst (collectGrades endpoints))

/-- The scanner's reported `lowestGrade`:
`uniqueGrades[uniqueGrades.length - 1] || null` (a trailing empty
string, being falsy, would also yield `null`). -/
def lowestGradeOf (le : String → String → Bool)
    (endpoints : List SSLLabsEndpoint) : Option String :=
  match (uniqueGradesOf le endpoints).getLast? with
  | some g => if g = "" then none else some g
  | none => none

/-- Counterexample to C4 as stated: with one `T`-graded and one
`M`-graded endpoint, the grade of lowest numeric rank is `M`
(rank 20 below 30), but the scanner reports `lowestGrade = "T"` — it
takes the last element of the sorted unique grades, and never consults
the numeric ranking it also computes.  `T` and `M` are single plain
letters, on which every collation (here instantiated with code-point
order) sorts `M` before `T`. -/
theorem sslLabs_lowestGrade_counterexample :
    lowestGradeOf strLe [⟨"192.0.2.1", some "T"⟩, ⟨"192.0.2.2", some "M"⟩] = some "T"
    ∧ "M" ∈ collectGrades [⟨"192.0.2.1", some "T"⟩, ⟨"192.0.2.2", some "M"⟩]
    ∧ gradeRank "M" < gradeRank "T"
    ∧ lowestGradeValueOf [⟨"192.0.2.1", some "T"⟩, ⟨"192.0.2.2", some "M"⟩]
        = gradeRank "M" := by
  decide

theorem mem_dedupFirstAux (x : String) :
    ∀ (l seen : List String), x ∈ dedupFirstAux seen l ↔ (x ∈ l ∧ x ∉ seen) := by
  intro l
  induction l with
  | nil => intro seen; simp [dedupFirstAux]
  | cons y rest ih =>
    intro seen
    by_cases hy : y ∈ seen
    · rw [dedupFirstAux, if_pos hy, ih seen]
      constructor
      · exact fun ⟨h1, h2⟩ => ⟨List.mem_cons_of_mem y h1, h2⟩
      · rintro ⟨h1, h2⟩
        rcases List.mem_cons.mp h1 with rfl | h1
        · exact absurd hy h2
        · exact ⟨h1, h2⟩
    · rw [dedupFirstAux, if_neg hy]
      by_cases hxy : x = y
      · subst hxy
        simp [hy]
      · simp only [List.mem_cons, hxy, false_or]
        rw [ih (y :: seen)]
        simp [hxy]

theorem mem_dedupFirst (x : String) (l : List String) :
    x ∈ dedupFirst l ↔ x ∈ l := by
  simp [dedupFirst, mem_dedupFirstAux]

theorem charListLe_refl : ∀ as, charListLe as as = true := by
  intro as
  induction as with
  | nil => rfl
  | cons a as' ih => simp [charListLe, ih]

theorem charListLe_total : ∀ as bs, charListLe as bs = true ∨ charListLe bs as = true := by
  intro as
  induction as with
  | nil => intro bs; exact Or.inl rfl
  | cons a as' ih =>
    intro bs
    cases bs with
    | nil => exact Or.inr rfl
    | cons b bs' =>
      rcases Nat.lt_trichotomy a.toNat b.toNat with h | h | h
      · exact Or.inl (by simp [charListLe, h])
      · rcases ih bs' with h2 | h2
        · exact Or.inl (by simp [charListLe, h, h2])
        · exact Or.inr (by simp [charListLe, h, h2])
      · exact Or.inr (by simp [charListLe, h])

theorem charListLe_trans : ∀ as bs cs, charListLe as bs = true → charListLe bs cs = true →
    charListLe as cs = true := by
  intro as
  induction as with
  | nil => intro bs cs _ _; rfl
  | cons a as' ih =>
    intro bs cs h1 h2
    cases bs with
    | nil => simp [charListLe] at h1
    | cons b bs' =>
      cases cs with
      | nil => simp [charListLe] at h2
      | cons c cs' =>
        simp only [charListLe] at h1 h2 ⊢
        split_ifs at h1 h2 ⊢ <;>
          first
            | rfl
            | omega
            | exact ih bs' cs' h1 h2

theorem strLe_refl (a : String) : strLe a a = true := charListLe_refl _

theorem strLe_total (a b : String) : strLe a b = true ∨ strLe b a = true :=
  charListLe_total _ _

theorem strLe_trans {a b c : String} (h1 : strLe a b = true) (h2 : strLe b c = true) :
    strLe a c = true :=
  charListLe_trans _ _ _ h1 h2

theorem mem_insertSorted (le : String → String → Bool) (x : String) :
    ∀ (l : List String) (b : String), b ∈ insertSorted le x l ↔ b = x ∨ b ∈ l := by
  intro l
  induction l with
  | nil => intro b; simp [insertSorted]
  | cons y ys ih =>
    intro b
    rw [insertSorted]
    by_cases hxy : le x y = true
    · rw [if_pos hxy]
      simp [List.mem_cons]
    · rw [if_neg hxy]
      simp only [List.mem_cons, ih b]
      tauto

theorem pairwise_insertSorted (le : String → String → Bool)
    (htot : ∀ a b, le a b = true ∨ le b a = true)
    (htrans : ∀ a b c, le a b = true → le b c = true → le a c = true)
    (x : String) :
    ∀ l : List String, List.Pairwise (fun a b => le a b = true) l →
      List.Pairwise (fun a b => le a b = true) (insertSorted le x l) := by
  intro l
  induction l with
  | nil => intro _; simp [insertSorted]
  | cons y ys ih =>
    intro h
    rw [List.pairwise_cons] at h
    obtain ⟨hy, hys⟩ := h
    rw [insertSorted]
    by_cases hxy : le x y = true
    · rw [if_pos hxy, List.pairwise_cons]
      refine ⟨?_, List.pairwise_cons.mpr ⟨hy, hys⟩⟩
      intro b hb
      rcases List.mem_cons.mp hb with rfl | hb
      · exact hxy
      · exact htrans x y b hxy (hy b hb)
    · rw [if_neg hxy, List.pairwise_cons]
      refine ⟨?_, ih hys⟩
      intro b hb
      rcases (mem_insertSorted le x ys b).mp hb with rfl | hb
      · rcases htot b y with h | h
        · exact absurd h hxy
        · exact h
      · exact hy b hb

theorem pairwise_sortStrings (le : String → String → Bool)
    (htot : ∀ a b, le a b = true ∨ le b a = true)
    (htrans : ∀ a b c, le a b = true → le b c = true → le a c = true) :
    ∀ l : List String, List.Pairwise (fun a b => le a b = true) (sortStrings le l) := by
  intro l
  induction l with
  | nil => simp [sortStrings]
  | cons x xs ih => exact pairwise_insertSorted le htot htrans x _ ih

theorem mem_sortStrings (le : String → String → Bool) (b : String) :
    ∀ l : List String, b ∈ sortStrings le l ↔ b ∈ l := by
  intro l
  induction l with
  | nil => simp [sortStrings]
  | cons x xs ih =>
    rw [sortStrings, mem_insertSorted le x _ b, ih]
    simp

theorem mem_of_getLastSome :
    ∀ {l : List String} {y : String}, l.getLast? = some y → y ∈ l := by
  intro l
  induction l with
  | nil => intro y h; simp at h
  | cons x xs ih =>
    intro y h
    cases xs with
    | nil =>
      simp only [List.getLast?_singleton, Option.some.injEq] at h
      simp [h]
    | cons x' xs' =>
      rw [List.getLast?_cons_cons] at h
      exact List.mem_cons_of_mem x (ih h)

/-- In a list pairwise-sorted by a total comparator, every member is
comparator-below the last element. -/
theorem pairwise_le_getLastSome (le : String → String → Bool)
    (htot : ∀ a b, le a b = true ∨ le b a = true) :
    ∀ {l : List String}, List.Pairwise (fun a b => le a b = true) l →
      ∀ {x y : String}, x ∈ l → l.getLast? = some y → le x y = true := by
  intro l
  induction l with
  | nil => intro _ x y hx _; simp at hx
  | cons z zs ih =>
    intro hp x y hx hy
    rw [List.pairwise_cons] at hp
    cases zs with
    | nil =>
      simp only [List.getLast?_singleton, Option.some.injEq] at hy
      rcases List.mem_cons.mp hx with rfl | hx'
      · rw [← hy]
        rcases htot x x with h | h
        · exact h
        · exact h
      · simp at hx'
    | cons z' zs' =>
      rw [List.getLast?_cons_cons] at hy
      rcases List.mem_cons.mp hx with rfl | hx'
      · exact hp.1 y (mem_of_getLastSome hy)
      · exact ih hp.2 hx' hy

/-- C4 (amended).  For a READY response with at least one graded
endpoint (grades are never the empty string), the reported
`lowestGrade` is the last entry of the unique grade list as sorted by
the host's `localeCompare` collation — a collation-greatest endpoint
grade — not the grade of lowest numeric rank; the numeric ranking the
scanner also computes is never consulted.  The statement holds for
every total, transitive comparator, which every `localeCompare`
collation is, so it commits to no particular collation of the
punctuated grades. -/
theorem sslLabs_lowestGrade_is_collation_max (le : String → String → Bool)
    (htot : ∀ a b, le a b = true ∨ le b a = true)
    (htrans : ∀ a b c, le a b = true → le b c = true → le a c = true)
    (endpoints : List SSLLabsEndpoint)
    (g0 : String) (hg0 : g0 ∈ collectGrades endpoints)
    (hnoempty : "" ∉ collectGrades endpoints) :
    ∃ g, lowestGradeOf le endpoints = some g
      ∧ g ∈ collectGrades endpoints
      ∧ ∀ gp ∈ collectGrades endpoints, le gp g = true := by
  have hmemu : ∀ y, y ∈ uniqueGradesOf le endpoints ↔ y ∈ collectGrades endpoints := by
    intro y
    rw [uniqueGradesOf, mem_sortStrings, mem_dedupFirst]
  have hne : uniqueGradesOf le endpoints ≠ [] := by
    intro h
    have hmem := (hmemu g0).mpr hg0
    rw [h] at hmem
    simp at hmem
  obtain ⟨gmax, hgl⟩ : ∃ g, (uniqueGradesOf le endpoints).getLast? = some g := by
    cases hu : (uniqueGradesOf le endpoints).getLast? with
    | some g => exact ⟨g, rfl⟩
    | none => exact absurd (List.getLast?_eq_none_iff.mp hu) hne
  have hmem : gmax ∈ collectGrades endpoints := (hmemu gmax).mp (mem_of_getLastSome hgl)
  have hmax : ∀ gp ∈ collectGrades endpoints, le gp gmax = true := by
    intro gp hgp
    exact pairwise_le_getLastSome le htot
      (pairwise_sortStrings le htot htrans (dedupFirst (collectGrades endpoints)))
      ((hmemu gp).mpr hgp) hgl
  have hgmaxne : gmax ≠ "" := by
    intro h
    rw [h] at hmem
    exact hnoempty hmem
  refine ⟨gmax, ?_, hmem, hmax⟩
  rw [lowestGradeOf, hgl]
  simp [hgmaxne]

/-- Witness for the amended C4 at a concrete pair of endpoints, with
the comparator instantiated to code-point order (which on the plain
letter grades `F` and `A` agrees with every collation). -/
theorem sslLabs_lowestGrade_is_collation_max_witness :
    ("A" ∈ collectGrades [⟨"192.0.2.1", some "F"⟩, ⟨"192.0.2.2", some "A"⟩]
      ∧ "" ∉ collectGrades [⟨"192.0.2.1", some "F"⟩, ⟨"192.0.2.2", some "A"⟩])
    ∧ ∃ g, lowestGradeOf strLe [⟨"192.0.2.1", some "F"⟩, ⟨"192.0.2.2", some "A"⟩] = some g
        ∧ g ∈ collectGrades [⟨"192.0.2.1", some "F"⟩, ⟨"192.0.2.2", some "A"⟩]
        ∧ ∀ gp ∈ collectGrades [⟨"192.0.2.1", some "F"⟩, ⟨"192.0.2.2", some "A"⟩],
            strLe gp g = true :=
  ⟨⟨by decide, by decide⟩,
   sslLabs_lowestGrade_is_collation_max strLe strLe_total
     (fun _ _ _ h1 h2 => strLe_trans h1 h2)
     [⟨"192.0.2.1", some "F"⟩, ⟨"192.0.2.2", some "A"⟩] "A" (by decide) (by decide)⟩

/-- A raw crt.sh certificate row as `certificateScanner.run` reads it.
`not_before`/`not_after` are the parsed `Date` values as millisecond
timestamps. -/
structure CertRow where
  common_name : Option String
  name_value : Option String
  issuer_name : Option String
  not_before : Int
  not_after : Int
  id : Int
deriving DecidableEq, Repr

/-- A parsed certificate (the scanner's `CertInfo`). -/
structure CertInfo where
  commonName : String
  issuer : String
  notBefore : Int
  notAfter : Int
  isExpired : Bool
  daysUntilExpiry : Int
  id : Int
deriving DecidableEq, Repr

def msPerDay : Int := 86400000

/-- Parsing one crt.sh row relative to `now`
(`cert.common_name || cert.name_value || 'Unknown'`, floor-divided
expiry day count). -/
def parseCert (now : Int) (cert : CertRow) : CertInfo :=
  { commonName := jsOrElse cert.common_name (jsOrElse cert.name_value "Unknown"),
    issuer := jsOrElse cert.issuer_name "Unknown",
    notBefore := cert.not_before,
    notAfter := cert.not_after,
    isExpired := cert.not_after < now,
    daysUntilExpiry := (cert.not_after - now).fdiv msPerDay,
    id := cert.id }

/-- Stable descending insertion by `notBefore`
(`.sort((a, b) => b.notBefore - a.notBefore)`, most recent first;
ties keep original order as JavaScript sort is stable). -/
def insertByNotBeforeDesc (c : CertInfo) : List CertInfo → List CertInfo
  | [] => [c]
  | d :: ds =>
    if d.notBefore ≤ c.notBefore then c :: d :: ds
    else d :: insertByNotBeforeDesc c ds

def sortByNotBeforeDesc : List CertInfo → List CertInfo
  | [] => []
  | c :: cs => insertByNotBeforeDesc c (sortByNotBeforeDesc cs)

/-- First-occurrence deduplication by common name (the `certsByName`
map keeps the first — most recently issued — cert per name). -/
def dedupByNameAux (seen : List String) : List CertInfo → List CertInfo
  | [] => []
  | c :: cs =>
    if c.commonName ∈ seen then dedupByNameAux seen cs
    else c :: dedupByNameAux (c.commonName :: seen) cs

/-- The scanner's `activeCerts`: non-expired rows, most recent first,
one per common name. -/
def activeCertsOf (certs : List CertRow) (now : Int) : List CertInfo :=
  dedupByNameAux []
    (sortByNotBeforeDesc ((certs.map (parseCert now)).filter (fun c => !c.isExpired)))

def expiredCertsOf (certs : List CertRow) (now : Int) : List CertInfo :=
  (certs.map (parseCert now)).filter (fun c => c.isExpired)

def expiringIn30Of (certs : List CertRow) (now : Int) : List CertInfo :=
  (activeCertsOf certs now).filter
    (fun c => decide (c.daysUntilExpiry ≤ 30) && decide (0 < c.daysUntilExpiry))

def expiringIn7Of (certs : List CertRow) (now : Int) : List CertInfo :=
  (activeCertsOf certs now).filter
    (fun c => decide (c.daysUntilExpiry ≤ 7) && decide (0 < c.daysUntilExpiry))

def expiry7Msg (c : CertInfo) : String :=
  "Certificate for " ++ c.commonName ++ " expires in "
    ++ toString c.daysUntilExpiry ++ " day(s) - renew immediately!"

def expiry30Msg (c : CertInfo) : String :=
  "Certificate for " ++ c.commonName ++ " expires in "
    ++ toString c.daysUntilExpiry ++ " days - plan renewal soon"

def selfSignedOf (certs : List CertRow) (now : Int) : List CertInfo :=
  (activeCertsOf certs now).filter
    (fun c => jsIncludes (jsToLower c.issuer) "self-signed" || c.commonName == c.issuer)

def wildcardOf (certs : List CertRow) (now : Int) : List CertInfo :=
  (activeCertsOf certs now).filter (fun c => jsStartsWith c.commonName "*.")

/-- Certificates expired within the last 30 days that have no active
certificate for the same common name. -/
def expiredNoReplacementOf (certs : List CertRow) (now : Int) : List CertInfo :=
  ((expiredCertsOf certs now).filter
      (fun c => decide ((now - c.notAfter).fdiv msPerDay ≤ 30))).filter
    (fun c => !((activeCertsOf certs now).any (fun a => a.commonName == c.commonName)))

def uniqueIssuersOf (certs : List CertRow) (now : Int) : List String :=
  dedupFirst ((activeCertsOf certs now).map (fun c => c.issuer))

/-- The issue list of `certificateScanner.run` on a nonempty
certificate list: the `issues` pushes (expiry-within-7, self-signed)
followed by the `warnings` pushes (expiry-within-30 when no 7-day
finding fired, wildcard, high count, expired-without-replacement,
issuer diversity), in push order. -/
def certIssues (certs : List CertRow) (now : Int) : List String :=
  (if 0 < (expiringIn7Of certs now).length then
    (expiringIn7Of certs now).map expiry7Msg
  else [])
  ++ (if 0 < (selfSignedOf certs now).length then
      [toString (selfSignedOf certs now).length
        ++ " self-signed certificate(s) detected - not trusted by browsers"]
    else [])
  ++ (if (expiringIn7Of certs now).length = 0 ∧ 0 < (expiringIn30Of certs now).length then
      (expiringIn30Of certs now).map expiry30Msg
    else [])
  ++ (if 0 < (wildcardOf certs now).length then
      [toString (wildcardOf certs now).length
        ++ " wildcard certificate(s) found - ensure proper security controls"]
    else [])
  ++ (if 10 < (activeCertsOf certs now).length then
      ["High number of active certificates (" ++ toString (activeCertsOf certs now).length
        ++ ") - review for unnecessary or duplicate certs"]
    else [])
  ++ (if 0 < (expiredNoReplacementOf certs now).length then
      [toString (expiredNoReplacementOf certs now).length
        ++ " certificate(s) expired recently without replacement: "
        ++ String.intercalate ", " ((expiredNoReplacementOf certs now).map (fun c => c.commonName))]
    else [])
  ++ (if 3 < (uniqueIssuersOf certs now).length then
      ["Certificates from " ++ toString (uniqueIssuersOf certs now).length
        ++ " different issuers - consider standardizing on fewer CAs"]
    else [])

/-- The scanner's summary on a nonempty certificate list. -/
def certSummary (certs : List CertRow) (now : Int) : String :=
  "Found " ++ toString certs.length ++ " total certificates"
  ++ (if 0 < (activeCertsOf certs now).length then
      ", " ++ toString (activeCertsOf certs now).length ++ " currently active"
    else "")
  ++ (if 0 < (expiredCertsOf certs now).length then
      ", " ++ toString (expiredCertsOf certs now).length ++ " expired"
    else "")

structure CertOutcome where
  summary : String
  issues : List String
deriving DecidableEq, Repr

/-- Embedding of `certificateScanner.run` as a function of the crt.sh
response (`none` models a failed fetch returning `undefined`) and the
current time. -/
def certScanRun (certificates : Option (List CertRow)) (now : Int) : CertOutcome :=
  match certificates with
  | none =>
    { summary := "No certificates found in transparency logs",
      issues := ["No SSL certificates found - if you use HTTPS, this might indicate a very new certificate"] }
  | some certs =>
    if certs.length = 0 then
      { summary := "No certificates found in transparency logs",
        issues := ["No SSL certificates found - if you use HTTPS, this might indicate a very new certificate"] }
    else
      { summary := certSummary certs now, issues := certIssues certs now }

/-- A certificate whose `not_after` lies exactly 5 days after time 0. -/
def fiveDayCert : CertRow :=
  { common_name := some "example.com", name_value := some "example.com",
    issuer_name := some "DigiCert", not_before := -86400000,
    not_after := 5 * 86400000, id := 1 }

/-- C6.  Every active (deduplicated, non-expired) certificate expiring
within 7 days (day count in `(0, 7]`) contributes a per-certificate
renew-immediately issue; otherwise every active certificate expiring
within 30 days contributes a per-certificate warning; and a certificate
whose `not_after` is 5 days in the future yields exactly one issue,
mentioning `expires in 5` and `immediately`. -/
theorem certificate_expiry_findings :
    (∀ (certs : List CertRow) (now : Int) (c : CertInfo),
        c ∈ activeCertsOf certs now → 0 < c.daysUntilExpiry → c.daysUntilExpiry ≤ 7 →
        expiry7Msg c ∈ certIssues certs now)
    ∧ (∀ (certs : List CertRow) (now : Int) (c : CertInfo),
        (∀ a ∈ activeCertsOf certs now, ¬(0 < a.daysUntilExpiry ∧ a.daysUntilExpiry ≤ 7)) →
        c ∈ activeCertsOf certs now → 0 < c.daysUntilExpiry → c.daysUntilExpiry ≤ 30 →
        expiry30Msg c ∈ certIssues certs now)
    ∧ (certScanRun (some [fiveDayCert]) 0).issues = [expiry7Msg (parseCert 0 fiveDayCert)]
    ∧ jsIncludes (expiry7Msg (parseCert 0 fiveDayCert)) "expires in 5" = true
    ∧ jsIncludes (expiry7Msg (parseCert 0 fiveDayCert)) "immediately" = true := by
  refine ⟨?_, ?_, by decide, by decide, by decide⟩
  · intro certs now c hc h0 h7
    have hmem : c ∈ expiringIn7Of certs now :=
      List.mem_filter.mpr ⟨hc, by simp [h0, h7]⟩
    have hlen : 0 < (expiringIn7Of certs now).length :=
      List.length_pos.mpr (List.ne_nil_of_mem hmem)
    have hpart : expiry7Msg c ∈
        (if 0 < (expiringIn7Of certs now).length then
          (expiringIn7Of certs now).map expiry7Msg
        else []) := by
      rw [if_pos hlen]
      exact List.mem_map_of_mem expiry7Msg hmem
    rw [certIssues]
    simp only [List.mem_append]
    tauto
  · intro certs now c hnone hc h0 h30
    have h7nil : expiringIn7Of certs now = [] := by
      rw [expiringIn7Of, List.filter_eq_nil_iff]
      intro a ha
      have := hnone a ha
      simp only [Bool.and_eq_true, decide_eq_true_eq]
      tauto
    have hmem : c ∈ expiringIn30Of certs now :=
      List.mem_filter.mpr ⟨hc, by simp [h0, h30]⟩
    have hlen : 0 < (expiringIn30Of certs now).length :=
      List.length_pos.mpr (List.ne_nil_of_mem hmem)
    have hpart : expiry30Msg c ∈
        (if (expiringIn7Of certs now).length = 0 ∧ 0 < (expiringIn30Of certs now).length then
          (expiringIn30Of certs now).map expiry30Msg
        else []) := by
      rw [if_pos ⟨by rw [h7nil]; rfl, hlen⟩]
      exact List.mem_map_of_mem expiry30Msg hmem
    rw [certIssues]
    simp only [List.mem_append]
    tauto

/-- Witness for C6: the five-day certificate produces its
renew-immediately issue through the general 7-day rule. -/
theorem certificate_expiry_findings_witness :
    expiry7Msg (parseCert 0 fiveDayCert) ∈ certIssues [fiveDayCert] 0 :=
  certificate_expiry_findings.1 [fiveDayCert] 0 (parseCert 0 fiveDayCert)
    (by decide) (by decide) (by decide)

/-- Findings of the email-authentication scanner, identified by the
i18next message keys `emailAuthScanner.run` emits (message parameters
are carried in the constructor). -/
inductive EmailFinding where
  | noSPF
  | spfHardFailWithDMARC
  | spfHardFailNoDMARC
  | spfAllowAll
  | spfNeutral
  | spfMissingAll
  | spfLookupLimit (count : Nat)
  | spfLookupWarning (count : Nat)
  | noDMARC
  | dmarcNone
  | dmarcQuarantine
  | dmarcNoPolicyDefined
  | dmarcNoSubdomain
  | dmarcNoReporting
  | dmarcPercentage (pct : String)
  | noDKIM
  | dkimNote
  | dkimVerify
deriving DecidableEq, Repr

/-- Embedding of `extractSPF` (domainChecks.ts): the first TXT value
starting, case-insensitively, with the SPF version tag. -/
def extractSPF (txtRecords : List String) : Option String :=
  txtRecords.find? (fun r => jsStartsWith (jsToLower r) "v=spf1")

/-- Whether the DMARC record enforces
(`dmarc && (p=quarantine or p=reject, case-insensitive)`). -/
def dmarcEnforced (dmarc : Option String) : Bool :=
  match dmarc with
  | some d => jsIncludes (jsToLower d) "p=quarantine" || jsIncludes (jsToLower d) "p=reject"
  | none => false

/-- Count of non-overlapping occurrences of a (nonempty) pattern,
scanning left to right; after a match the next `pat.length - 1`
positions are skipped.  Models `(s.match(/pat/g) || []).length` for the
literal patterns `include:` and `redirect=`. -/
def countOccAux (pat : List Char) : Nat → List Char → Nat
  | _, [] => 0
  | skip + 1, _ :: rest => countOccAux pat skip rest
  | 0, c :: rest =>
    if pat.isPrefixOf (c :: rest) then 1 + countOccAux pat (pat.length - 1) rest
    else countOccAux pat 0 rest

def countOcc (s pat : String) : Nat := countOccAux pat.toList 0 s.toList

/-- First capture of `/pct=(\d+)/`: the maximal digit run after the
first occurrence of `pct=` that is followed by at least one digit. -/
def pctDigitsAux : List Char → Option (List Char)
  | [] => none
  | c :: rest =>
    if "pct=".toList.isPrefixOf (c :: rest)
        && !((rest.drop 3).takeWhile Char.isDigit).isEmpty then
      some ((rest.drop 3).takeWhile Char.isDigit)
    else pctDigitsAux rest

/-- The percentage string interpolated into the `pct` warning
(`pctMatch ? pctMatch[1] : 'unknown'`). -/
def pctValueOf (dl : String) : String :=
  match pctDigitsAux dl.toList with
  | some ds => String.mk ds
  | none => "unknown"

/-- The SPF policy-strength if-chain (mutually exclusive, first match
wins): pushes to `issues` (first component) and `warnings` (second
component). -/
def spfPolicy (s : String) (dmarc : Option String) :
    List EmailFinding × List EmailFinding :=
  if jsIncludes s "~all" then ([], [])
  else if jsIncludes s "-all" then
    if dmarcEnforced dmarc then ([], [.spfHardFailWithDMARC])
    else ([], [.spfHardFailNoDMARC])
  else if jsIncludes s "+all" then ([.spfAllowAll], [])
  else if jsIncludes s "?all" then ([], [.spfNeutral])
  else if !jsIncludes s "all" then ([], [.spfMissingAll])
  else ([], [])

/-- The SPF DNS-lookup-budget check (`include:` plus `redirect=`
occurrences). -/
def spfLookups (s : String) : List EmailFinding × List EmailFinding :=
  if 10 < countOcc s "include:" + countOcc s "redirect=" then
    ([.spfLookupLimit (countOcc s "include:" + countOcc s "redirect=")], [])
  else if 8 < countOcc s "include:" + countOcc s "redirect=" then
    ([], [.spfLookupWarning (countOcc s "include:" + countOcc s "redirect=")])
  else ([], [])

/-- The SPF section of `emailAuthScanner.run`: the pushes to `issues`
(first component) and `warnings` (second component), in push order. -/
def spfFindings (spf : Option String) (dmarc : Option String) :
    List EmailFinding × List EmailFinding :=
  match spf with
  | none => ([.noSPF], [])
  | some s =>
    ((spfPolicy s dmarc).1 ++ (spfLookups s).1,
     (spfPolicy s dmarc).2 ++ (spfLookups s).2)

/-- The DMARC policy if-chain over the lowercased record. -/
def dmarcPolicyL (dl : String) : List EmailFinding :=
  if jsIncludes dl "p=none" then [.dmarcNone]
  else if jsIncludes dl "p=quarantine" then [.dmarcQuarantine]
  else if jsIncludes dl "p=reject" then []
  else [.dmarcNoPolicyDefined]

def dmarcSubdomainL (dl : String) : List EmailFinding :=
  if !jsIncludes dl "sp=" then [.dmarcNoSubdomain] else []

def dmarcReportingL (dl : String) : List EmailFinding :=
  if !jsIncludes dl "rua=" && !jsIncludes dl "ruf=" then [.dmarcNoReporting] else []

/-- The DMARC percentage check: a warning when `pct=` occurs but
`pct=100` does not occur (as substrings of the lowercased record),
carrying the regex-parsed percentage. -/
def dmarcPctL (dl : String) : List EmailFinding :=
  if jsIncludes dl "pct=" && !jsIncludes dl "pct=100" then
    [.dmarcPercentage (pctValueOf dl)]
  else []

/-- The DMARC section of `emailAuthScanner.run`: pushes to `issues`
(first component) and `warnings` (second component), in push order. -/
def dmarcFindings (dmarc : Option String) :
    List EmailFinding × List EmailFinding :=
  match dmarc with
  | none => ([.noDMARC], [])
  | some d =>
    ([], dmarcPolicyL (jsToLower d) ++ dmarcSubdomainL (jsToLower d)
          ++ dmarcReportingL (jsToLower d) ++ dmarcPctL (jsToLower d))

/-- The DKIM section of `emailAuthScanner.run`. -/
def dkimFindings (selectors : List String) :
    List EmailFinding × List EmailFinding :=
  if selectors.length = 0 then ([.noDKIM], [.dkimNote, .dkimVerify]) else ([], [])

/-- The combined finding list of the email-authentication scanner
(`[...issues, ...warnings]`, where each of the three sections pushed
into the shared `issues` and `warnings` arrays in order). -/
def emailAuthFindings (spf dmarc : Option String) (selectors : List String) :
    List EmailFinding :=
  ((spfFindings spf dmarc).1 ++ (dmarcFindings dmarc).1 ++ (dkimFindings selectors).1)
  ++ ((spfFindings spf dmarc).2 ++ (dmarcFindings dmarc).2 ++ (dkimFindings selectors).2)

/-- The six findings the SPF policy table can emit. -/
def spfPolicyTokens : List EmailFinding :=
  [.noSPF, .spfHardFailWithDMARC, .spfHardFailNoDMARC, .spfAllowAll, .spfNeutral, .spfMissingAll]

/-- The hard-fail warning the `-all` branch emits, by DMARC
enforcement. -/
def hardFailToken (dmarc : Option String) : EmailFinding :=
  if dmarcEnforced dmarc then .spfHardFailWithDMARC else .spfHardFailNoDMARC

theorem spfToken_not_in_dmarc_dkim (f : EmailFinding) (hf : f ∈ spfPolicyTokens)
    (dmarc : Option String) (selectors : List String) :
    f ∉ (dmarcFindings dmarc).1 ∧ f ∉ (dmarcFindings dmarc).2
    ∧ f ∉ (dkimFindings selectors).1 ∧ f ∉ (dkimFindings selectors).2 := by
  refine ⟨?_, ?_, ?_, ?_⟩
  · cases dmarc with
    | none => fin_cases hf <;> simp [dmarcFindings]
    | some d => simp [dmarcFindings]
  · cases dmarc with
    | none => simp [dmarcFindings]
    | some d =>
      fin_cases hf <;>
        · simp only [dmarcFindings, List.mem_append, dmarcPolicyL, dmarcSubdomainL,
            dmarcReportingL, dmarcPctL]
          split_ifs <;> simp
  · fin_cases hf <;> (rw [dkimFindings]; split_ifs <;> simp)
  · fin_cases hf <;> (rw [dkimFindings]; split_ifs <;> simp)

theorem spfToken_not_in_lookups (f : EmailFinding) (hf : f ∈ spfPolicyTokens)
    (s : String) : f ∉ (spfLookups s).1 ∧ f ∉ (spfLookups s).2 := by
  constructor <;> (fin_cases hf <;> (rw [spfLookups]; split_ifs <;> simp))

theorem count_emailAuth_eq_count_spf (f : EmailFinding) (hf : f ∈ spfPolicyTokens)
    (spf dmarc : Option String) (selectors : List String) :
    (emailAuthFindings spf dmarc selectors).count f
      = ((spfFindings spf dmarc).1).count f + ((spfFindings spf dmarc).2).count f := by
  obtain ⟨h1, h2, h3, h4⟩ := spfToken_not_in_dmarc_dkim f hf dmarc selectors
  rw [emailAuthFindings]
  simp [List.count_append, List.count_eq_zero.mpr h1, List.count_eq_zero.mpr h2,
    List.count_eq_zero.mpr h3, List.count_eq_zero.mpr h4]

theorem count_emailAuth_eq_count_policy (f : EmailFinding) (hf : f ∈ spfPolicyTokens)
    (s : String) (dmarc : Option String) (selectors : List String) :
    (emailAuthFindings (some s) dmarc selectors).count f
      = ((spfPolicy s dmarc).1).count f + ((spfPolicy s dmarc).2).count f := by
  rw [count_emailAuth_eq_count_spf f hf (some s) dmarc selectors]
  obtain ⟨hl1, hl2⟩ := spfToken_not_in_lookups f hf s
  simp [spfFindings, List.count_append, List.count_eq_zero.mpr hl1,
    List.count_eq_zero.mpr hl2]

/-- C7.  The SPF policy table is applied mutually exclusively, first
match wins: a record containing `~all` yields no policy finding; one
containing `-all` (and not `~all`) yields exactly one hard-fail
warning, chosen by whether DMARC enforces; `+all` yields the open-relay
issue; `?all` the neutral warning; a record containing none of the four
and no `all` at all yields the missing-`all` warning; and a missing SPF
record yields the no-SPF issue. -/
theorem spf_policy_table (s : String) (dmarc : Option String) (selectors : List String) :
    (jsIncludes s "~all" = true →
      ∀ f ∈ spfPolicyTokens, f ∉ emailAuthFindings (some s) dmarc selectors)
    ∧ (jsIncludes s "~all" = false → jsIncludes s "-all" = true →
      (emailAuthFindings (some s) dmarc selectors).count (hardFailToken dmarc) = 1
      ∧ ∀ f ∈ spfPolicyTokens, f ≠ hardFailToken dmarc →
          f ∉ emailAuthFindings (some s) dmarc selectors)
    ∧ (jsIncludes s "~all" = false → jsIncludes s "-all" = false →
        jsIncludes s "+all" = true →
      (emailAuthFindings (some s) dmarc selectors).count .spfAllowAll = 1
      ∧ ∀ f ∈ spfPolicyTokens, f ≠ .spfAllowAll →
          f ∉ emailAuthFindings (some s) dmarc selectors)
    ∧ (jsIncludes s "~all" = false → jsIncludes s "-all" = false →
        jsIncludes s "+all" = false → jsIncludes s "?all" = true →
      (emailAuthFindings (some s) dmarc selectors).count .spfNeutral = 1
      ∧ ∀ f ∈ spfPolicyTokens, f ≠ .spfNeutral →
          f ∉ emailAuthFindings (some s) dmarc selectors)
    ∧ (jsIncludes s "~all" = false → jsIncludes s "-all" = false →
        jsIncludes s "+all" = false → jsIncludes s "?all" = false →
        jsIncludes s "all" = false →
      (emailAuthFindings (some s) dmarc selectors).count .spfMissingAll = 1
      ∧ ∀ f ∈ spfPolicyTokens, f ≠ .spfMissingAll →
          f ∉ emailAuthFindings (some s) dmarc selectors)
    ∧ EmailFinding.noSPF ∈ emailAuthFindings none dmarc selectors := by
  refine ⟨?_, ?_, ?_, ?_, ?_, ?_⟩
  · intro h f hfTok
    refine List.count_eq_zero.mp ?_
    rw [count_emailAuth_eq_count_policy f hfTok s dmarc selectors]
    simp [spfPolicy, h]
  · intro h1 h2
    have hp : spfPolicy s dmarc
        = if dmarcEnforced dmarc then ([], [.spfHardFailWithDMARC])
          else ([], [.spfHardFailNoDMARC]) := by
      simp [spfPolicy, h1, h2]
    have hmem : hardFailToken dmarc ∈ spfPolicyTokens := by
      rw [hardFailToken]; split_ifs <;> simp [spfPolicyTokens]
    constructor
    · rw [count_emailAuth_eq_count_policy _ hmem s dmarc selectors, hp, hardFailToken]
      cases henf : dmarcEnforced dmarc <;> simp
    · intro f hfTok hne
      refine List.count_eq_zero.mp ?_
      rw [count_emailAuth_eq_count_policy f hfTok s dmarc selectors, hp]
      rw [hardFailToken] at hne
      cases henf : dmarcEnforced dmarc <;> rw [henf] at hne <;> simp at hne <;> simp [hne]
  · intro h1 h2 h3
    have hp : spfPolicy s dmarc = ([.spfAllowAll], []) := by
      simp [spfPolicy, h1, h2, h3]
    constructor
    · rw [count_emailAuth_eq_count_policy _ (by simp [spfPolicyTokens]) s dmarc selectors, hp]
      simp
    · intro f hfTok hne
      refine List.count_eq_zero.mp ?_
      rw [count_emailAuth_eq_count_policy f hfTok s dmarc selectors, hp]
      simp [hne]
  · intro h1 h2 h3 h4
    have hp : spfPolicy s dmarc = ([], [.spfNeutral]) := by
      simp [spfPolicy, h1, h2, h3, h4]
    constructor
    · rw [count_emailAuth_eq_count_policy _ (by simp [spfPolicyTokens]) s dmarc selectors, hp]
      simp
    · intro f hfTok hne
      refine List.count_eq_zero.mp ?_
      rw [count_emailAuth_eq_count_policy f hfTok s dmarc selectors, hp]
      simp [hne]
  · intro h1 h2 h3 h4 h5
    have hp : spfPolicy s dmarc = ([], [.spfMissingAll]) := by
      simp [spfPolicy, h1, h2, h3, h4, h5]
    constructor
    · rw [count_emailAuth_eq_count_policy _ (by simp [spfPolicyTokens]) s dmarc selectors, hp]
      simp
    · intro f hfTok hne
      refine List.count_eq_zero.mp ?_
      rw [count_emailAuth_eq_count_policy f hfTok s dmarc selectors, hp]
      simp [hne]
  · simp [emailAuthFindings, spfFindings]

/-- Witness for C7: `v=spf1 ~all` with enforcing DMARC produces no
hard-fail warning. -/
theorem spf_policy_table_witness :
    EmailFinding.spfHardFailWithDMARC
      ∉ emailAuthFindings (some "v=spf1 ~all") (some "v=DMARC1; p=reject") ["google"] :=
  (spf_policy_table "v=spf1 ~all" (some "v=DMARC1; p=reject") ["google"]).1
    (by decide) EmailFinding.spfHardFailWithDMARC (by simp [spfPolicyTokens])

theorem pct_not_in_spf_dkim (p : String) (spf dmarc : Option String)
    (selectors : List String) :
    EmailFinding.dmarcPercentage p ∉ (spfFindings spf dmarc).1
    ∧ EmailFinding.dmarcPercentage p ∉ (spfFindings spf dmarc).2
    ∧ EmailFinding.dmarcPercentage p ∉ (dkimFindings selectors).1
    ∧ EmailFinding.dmarcPercentage p ∉ (dkimFindings selectors).2 := by
  refine ⟨?_, ?_, ?_, ?_⟩
  · cases spf with
    | none => simp [spfFindings]
    | some s =>
      simp only [spfFindings, List.mem_append, spfPolicy, spfLookups]
      split_ifs <;> simp
  · cases spf with
    | none => simp [spfFindings]
    | some s =>
      simp only [spfFindings, List.mem_append, spfPolicy, spfLookups]
      split_ifs <;> simp
  · rw [dkimFindings]; split_ifs <;> simp
  · rw [dkimFindings]; split_ifs <;> simp

theorem pct_only_from_pctL (p : String) (dl : String) :
    EmailFinding.dmarcPercentage p ∉ dmarcPolicyL dl
    ∧ EmailFinding.dmarcPercentage p ∉ dmarcSubdomainL dl
    ∧ EmailFinding.dmarcPercentage p ∉ dmarcReportingL dl := by
  refine ⟨?_, ?_, ?_⟩
  · rw [dmarcPolicyL]; split_ifs <;> simp
  · rw [dmarcSubdomainL]; split_ifs <;> simp
  · rw [dmarcReportingL]; split_ifs <;> simp

/-- C8 (amended).  When a DMARC record exists, the percentage warning
(carrying the regex-parsed value) is emitted exactly when the
lowercased record contains `pct=` and does not contain the substring
`pct=100`; so `pct=100` and an absent tag emit nothing, but so does any
other value with `pct=100` as a prefix, such as `pct=1000`. -/
theorem dmarc_pct_warning_iff (spf : Option String) (d : String)
    (selectors : List String) :
    ((EmailFinding.dmarcPercentage (pctValueOf (jsToLower d))
        ∈ emailAuthFindings spf (some d) selectors)
      ↔ (jsIncludes (jsToLower d) "pct=" = true
          ∧ jsIncludes (jsToLower d) "pct=100" = false))
    ∧ (∀ p, EmailFinding.dmarcPercentage p ∈ emailAuthFindings spf (some d) selectors →
        p = pctValueOf (jsToLower d)) := by
  have key : ∀ p, (EmailFinding.dmarcPercentage p ∈ emailAuthFindings spf (some d) selectors)
      ↔ EmailFinding.dmarcPercentage p ∈ dmarcPctL (jsToLower d) := by
    intro p
    obtain ⟨h1, h2, h3, h4⟩ := pct_not_in_spf_dkim p spf (some d) selectors
    obtain ⟨g1, g2, g3⟩ := pct_only_from_pctL p (jsToLower d)
    simp only [emailAuthFindings, dmarcFindings, List.mem_append, List.not_mem_nil]
    tauto
  constructor
  · rw [key]
    rw [dmarcPctL]
    split_ifs with hc
    · simp only [Bool.and_eq_true, Bool.not_eq_true'] at hc
      simp [hc]
    · simp only [Bool.and_eq_true, Bool.not_eq_true'] at hc
      simp only [List.not_mem_nil, false_iff]
      intro hcontra
      exact hc hcontra
  · intro p hp
    rw [key, dmarcPctL] at hp
    split_ifs at hp with hc
    · simpa using hp
    · simp at hp

/-- The DMARC record `v=DMARC1; p=reject; pct=1000`. -/
def dmarcWithPct1000 : String := "v=DMARC1; p=reject; pct=1000"

def isPctFinding : EmailFinding → Bool
  | .dmarcPercentage _ => true
  | _ => false

/-- Counterexample to C8 as stated: for `pct=1000` the parsed value is
1000, which is not equal to 100, yet no percentage warning is emitted —
the code suppresses the warning whenever the substring `pct=100`
occurs, which it does inside `pct=1000`. -/
theorem dmarc_pct_counterexample :
    pctValueOf (jsToLower dmarcWithPct1000) = "1000"
    ∧ ("1000" : String) ≠ "100"
    ∧ (emailAuthFindings (some "v=spf1 ~all") (some dmarcWithPct1000)
        ["google"]).any isPctFinding = false := by
  decide

/-- Witness for the amended C8: `pct=50` emits the warning with the
parsed value 50. -/
theorem dmarc_pct_warning_iff_witness :
    EmailFinding.dmarcPercentage "50"
      ∈ emailAuthFindings (some "v=spf1 ~all") (some "v=DMARC1; p=none; pct=50") ["google"] := by
  have h := (dmarc_pct_warning_iff (some "v=spf1 ~all") "v=DMARC1; p=none; pct=50"
    ["google"]).1.mpr ⟨by decide, by decide⟩
  have hv : pctValueOf (jsToLower "v=DMARC1; p=none; pct=50") = "50" := by decide
  rw [hv] at h
  exact h

/-- The IANA RDAP bootstrap registry body: `services` is a list of
`[tld-list, server-url-list]` pairs. -/
structure RdapBootstrap where
  services : List (List String × List String)
deriving DecidableEq, Repr

/-- An RDAP registration event (`eventDate` as a parsed millisecond
timestamp). -/
structure RdapEvent where
  eventAction : String
  eventDate : Int
deriving DecidableEq, Repr

/-- An RDAP domain document, restricted to the fields
`rdapScanner.run` reads for its findings and summary.  `secureDNS`
models the optional object with its optional `delegationSigned` field;
the registrar vcard extraction populates a display-only data field and
is not modelled. -/
structure RdapJson where
  ldhName : Option String
  status : List String
  events : List RdapEvent
  secureDNS : Option (Option Bool)
  nameservers : List String
deriving DecidableEq, Repr

/-- One RDAP server's response to `GET serverURL ++ domain/ ++ domain`. -/
inductive ServerResp where
  | ok (data : RdapJson)
  | notFound
  | httpError (code : Nat)
  | netError (msg : String)
deriving Repr

structure RdapOutcome where
  summary : String
  issues : Option (List String)
deriving DecidableEq, Repr

/-- Step 2 of the scanner: try each candidate server in order until one
returns HTTP 200; 404 and other failures update `lastError` and move
on.  Returns the parsed document (if any), the last error, and the
list of URLs requested. -/
def rdapTryServers (domain : String) (serverGet : String → ServerResp) :
    List String → Option String → Option RdapJson × Option String × List String
  | [], lastError => (none, lastError, [])
  | server :: rest, lastError =>
    let url := server ++ "domain/" ++ domain
    match serverGet url with
    | .ok data => (some data, lastError, [url])
    | .notFound =>
      let r := rdapTryServers domain serverGet rest (some "Domain not found")
      (r.1, r.2.1, url :: r.2.2)
    | .httpError code =>
      let r := rdapTryServers domain serverGet rest (some ("Server returned " ++ toString code))
      (r.1, r.2.1, url :: r.2.2)
    | .netError msg =>
      let r := rdapTryServers domain serverGet rest (some msg)
      (r.1, r.2.1, url :: r.2.2)

def problemStatuses : List String :=
  ["clientHold", "serverHold", "redemptionPeriod", "pendingDelete"]

def isProblemStatus (st : String) : Bool :=
  problemStatuses.any (fun ps => jsIncludes (jsToLower st) (jsToLower ps))

/-- Step 3 of the scanner: analysis of a successfully retrieved RDAP
document. -/
def analyzeRdap (domain : String) (data : RdapJson) (now : Int) : RdapOutcome :=
  let statuses := data.status
  let ldhName := jsOrElse data.ldhName domain
  let statusIssues :=
    if statuses.any isProblemStatus then
      ["Domain has problematic status: "
        ++ String.intercalate ", " (statuses.filter isProblemStatus)]
    else []
  let expirationEvent := data.events.find? (fun e => e.eventAction == "expiration")
  let expiryDays : Option Int :=
    expirationEvent.map (fun ev => (ev.eventDate - now).fdiv msPerDay)
  let expiryIssues :=
    match expiryDays with
    | some days =>
      if days < 0 then ["Domain expired " ++ toString days.natAbs ++ " days ago"]
      else if days ≤ 30 then ["Domain expires in " ++ toString days ++ " days - renew soon!"]
      else []
    | none => []
  let expiryWarnings :=
    match expiryDays with
    | some days =>
      if 0 ≤ days ∧ 30 < days ∧ days ≤ 60 then
        ["Domain expires in " ++ toString days ++ " days - plan renewal"]
      else []
    | none => []
  let dnssecWarnings :=
    match data.secureDNS with
    | some (some false) =>
      ["DNSSEC is not enabled - domain is vulnerable to DNS spoofing attacks"]
    | _ => []
  let nsIssues :=
    if data.nameservers.length = 0 then ["No nameservers found - domain cannot resolve"]
    else []
  let nsWarnings :=
    if data.nameservers.length ≠ 0 ∧ data.nameservers.length < 2 then
      ["Only one nameserver configured - add redundant nameservers for reliability"]
    else []
  let issues := statusIssues ++ expiryIssues ++ nsIssues
  let warnings := expiryWarnings ++ dnssecWarnings ++ nsWarnings
  let allIssues := issues ++ warnings
  let summary :=
    "Domain: " ++ ldhName
    ++ (if 0 < statuses.length then
        ", status: " ++ (if statuses.contains "active" then "active" else statuses.headD "")
      else "")
    ++ (match expiryDays with
        | some days => ", expires in " ++ toString days ++ " days"
        | none => "")
  { summary := summary,
    issues := if 0 < allIssues.length then some allIssues else none }

/-- The domain's top-level label: `parts[parts.length - 1]` of
`domain.split('.')`. -/
def tldOf (domain : String) : String :=
  String.mk ((splitOnChar '.' domain.toList).getLastD [])

/-- The RDAP server list for a domain's TLD: the second component of
the first bootstrap service whose TLD list includes the lowercased
TLD. -/
def rdapServersOf (bs : RdapBootstrap) (domain : String) : List String :=
  ((bs.services.find? (fun svc => svc.1.contains (jsToLower (tldOf domain)))).map
    Prod.snd).getD []

/-- Embedding of `rdapScanner.run` as a function of the bootstrap fetch
result (`.error code` models a non-2xx bootstrap response, which throws
into the outer catch) and the per-URL server responses.  Besides the
outcome it returns whether the bootstrap registry was fetched and the
list of RDAP server URLs requested, to make the network footprint of
each path explicit. -/
def rdapRun (domain : String) (bootstrap : Except Nat RdapBootstrap)
    (serverGet : String → ServerResp) (now : Int) :
    RdapOutcome × Bool × List String :=
  if (splitOnChar '.' domain.toList).length < 2 then
    ({ summary := "Invalid domain",
       issues := some ["Domain must have at least a name and TLD (e.g., example.com)"] },
     false, [])
  else
    match bootstrap with
    | .error code =>
      ({ summary := "RDAP lookup failed",
         issues := some ["Failed to retrieve RDAP information: Failed to fetch RDAP bootstrap data: "
           ++ toString code] },
       true, [])
    | .ok bs =>
      if (rdapServersOf bs domain).length = 0 then
        ({ summary := "RDAP not available for this TLD",
           issues := some ["No RDAP service available for ." ++ tldOf domain ++ " domains.",
             "This TLD may not support RDAP or uses legacy WHOIS only."] },
         true, [])
      else
        let r := rdapTryServers domain serverGet (rdapServersOf bs domain) none
        match r.1 with
        | some data => (analyzeRdap domain data now, true, r.2.2)
        | none =>
          ({ summary := "RDAP lookup failed",
             issues := some ["Could not retrieve RDAP data: "
               ++ jsOrElse r.2.1 "Domain not found",
               "Domain may not be registered or RDAP server may be unavailable."] },
           true, r.2.2)

theorem splitOnChar_ne_nil (c : Char) : ∀ l : List Char, splitOnChar c l ≠ [] := by
  intro l
  cases l with
  | nil => simp [splitOnChar]
  | cons x rest =>
    rw [splitOnChar]
    split_ifs
    · simp
    · cases h : splitOnChar c rest <;> simp

theorem splitOnChar_length_one_iff (c : Char) :
    ∀ l : List Char, (splitOnChar c l).length = 1 ↔ c ∉ l := by
  intro l
  induction l with
  | nil => simp [splitOnChar]
  | cons x rest ih =>
    rw [splitOnChar]
    by_cases hx : x = c
    · rw [if_pos hx]
      have hne := splitOnChar_ne_nil c rest
      have hlen : 0 < (splitOnChar c rest).length := List.length_pos.mpr hne
      simp only [List.length_cons, List.mem_cons]
      constructor
      · intro h; omega
      · intro h; exact absurd (Or.inl hx.symm) h
    · rw [if_neg hx]
      cases hs : splitOnChar c rest with
      | nil => exact absurd hs (splitOnChar_ne_nil c rest)
      | cons g gs =>
        rw [hs] at ih
        simp only [List.length_cons, List.mem_cons] at ih ⊢
        constructor
        · intro h
          rintro (rfl | hc)
          · exact hx rfl
          · exact (ih.mp h) hc
        · intro h
          exact ih.mpr (fun hc => h (Or.inr hc))

/-- C9.  A domain with no dot produces the immediate invalid-format
outcome with no network activity at all (not even the bootstrap fetch,
and no exception — the outcome is an ordinary return); and when the
bootstrap registry is fetched successfully but lists no service for the
domain's lowercased TLD, the scanner returns the non-error outcome
whose summary is exactly `RDAP not available for this TLD`, fetching no
RDAP server URL beyond the bootstrap fetch itself. -/
theorem rdap_no_dot_and_unknown_tld (domain : String)
    (bootstrap : Except Nat RdapBootstrap) (serverGet : String → ServerResp) (now : Int) :
    ('.' ∉ domain.toList →
      rdapRun domain bootstrap serverGet now =
        ({ summary := "Invalid domain",
           issues := some ["Domain must have at least a name and TLD (e.g., example.com)"] },
         false, []))
    ∧ (∀ bs, bootstrap = .ok bs → '.' ∈ domain.toList →
        (∀ svc ∈ bs.services, svc.1.contains (jsToLower (tldOf domain)) = false) →
        rdapRun domain bootstrap serverGet now =
          ({ summary := "RDAP not available for this TLD",
             issues := some ["No RDAP service available for ." ++ tldOf domain ++ " domains.",
               "This TLD may not support RDAP or uses legacy WHOIS only."] },
           true, [])) := by
  constructor
  · intro hnodot
    have hlen : (splitOnChar '.' domain.toList).length = 1 :=
      (splitOnChar_length_one_iff '.' domain.toList).mpr hnodot
    rw [rdapRun.eq_def, if_pos (by omega)]
  · intro bs hbs hdot hnone
    have hlen1 : (splitOnChar '.' domain.toList).length ≠ 1 := by
      intro h
      exact absurd hdot (by
        have := (splitOnChar_length_one_iff '.' domain.toList).mp h
        exact this)
    have hpos : 0 < (splitOnChar '.' domain.toList).length :=
      List.length_pos.mpr (splitOnChar_ne_nil '.' domain.toList)
    have hfind : bs.services.find?
        (fun svc => svc.1.contains (jsToLower (tldOf domain))) = none := by
      rw [List.find?_eq_none]
      intro svc hsvc
      rw [hnone svc hsvc]
      simp
    have hservers : rdapServersOf bs domain = [] := by
      rw [rdapServersOf, hfind]
      rfl
    subst hbs
    rw [rdapRun.eq_def, if_neg (by omega)]
    simp only [hservers]
    rfl

/-- Bootstrap registry listing only the `com` TLD. -/
def comOnlyBootstrap : RdapBootstrap :=
  { services := [(["com"], ["https://rdap.example.net/"])] }

def noServerGet : String → ServerResp := fun _ => ServerResp.netError "unreachable"

/-- Witness for C9 at two concrete domains: a dotless domain, and a
domain whose TLD has no bootstrap entry. -/
theorem rdap_no_dot_and_unknown_tld_witness :
    rdapRun "localhost" (.ok comOnlyBootstrap) noServerGet 0 =
      ({ summary := "Invalid domain",
         issues := some ["Domain must have at least a name and TLD (e.g., example.com)"] },
       false, [])
    ∧ rdapRun "example.zz" (.ok comOnlyBootstrap) noServerGet 0 =
        ({ summary := "RDAP not available for this TLD",
           issues := some ["No RDAP service available for ." ++ tldOf "example.zz" ++ " domains.",
             "This TLD may not support RDAP or uses legacy WHOIS only."] },
         true, []) := by
  constructor
  · exact (rdap_no_dot_and_unknown_tld "localhost" (.ok comOnlyBootstrap)
      noServerGet 0).1 (by decide)
  · exact (rdap_no_dot_and_unknown_tld "example.zz" (.ok comOnlyBootstrap)
      noServerGet 0).2 comOnlyBootstrap rfl (by decide) (by decide)

end RiskAssess
